import Mathlib

/-!
Shallow embedding of the gesture/motion-detection core of the `video_app`
repository, together with theorems settling the frozen claims about it.

Sources embedded:
  * `src/gesture_detector.py` — `is_middle_finger_up` (static pose classifier);
  * `src/motion_tracker.py` — class `MotionTracker` (deque maxlen 6);
  * `src/app.py` — the inline copy of `MotionTracker` (deque maxlen 8) and an
    identical copy of `is_middle_finger_up`.

Python floats are embedded as exact rationals (`ℚ`); `None` becomes `Option.none`;
the two history deques become lists with explicit eviction.  The two tracker
classes differ only in the deque capacity, so the update body is embedded once,
parametrised by `maxlen`, and instantiated at 6 (`motion_tracker.py`) and
8 (`app.py`).
-/

namespace VideoApp

/-! ## Definitions -/

/-- One hand landmark: a normalized 2D keypoint `(x, y)`. -/
structure Landmark where
  x : ℚ
  y : ℚ
deriving DecidableEq

/-- A hand observation as produced by the landmark provider: the object whose
`landmark` field is read by `is_middle_finger_up` (`hand_landmarks.landmark`). -/
structure HandLandmarks where
  landmark : List Landmark
deriving DecidableEq

/-- Read `landmarks[i]` with an out-of-range default (the claims only scope
hands with at least 21 landmarks, where the default is never used). -/
def lmAt (landmarks : List Landmark) (i : ℕ) : Landmark :=
  landmarks.getD i ⟨0, 0⟩

/-- Embedding of `is_middle_finger_up` from `src/gesture_detector.py`
(lines 5–30; an identical copy sits in `src/app.py` lines 86–111). -/
def is_middle_finger_up (hand_landmarks : HandLandmarks) : Bool :=
  let landmarks := hand_landmarks.landmark
  let middle_extended := decide ((lmAt landmarks 12).y < (lmAt landmarks 10).y)
  let index_folded := decide ((lmAt landmarks 8).y > (lmAt landmarks 6).y)
  let ring_folded := decide ((lmAt landmarks 16).y > (lmAt landmarks 14).y)
  let pinky_folded := decide ((lmAt landmarks 20).y > (lmAt landmarks 18).y)
  let thumb_folded := decide ((lmAt landmarks 4).y > (lmAt landmarks 3).y) ||
    decide (|(lmAt landmarks 4).x - (lmAt landmarks 3).x| < 5/100)
  middle_extended && index_folded && ring_folded && pinky_folded

/-- State of the motion tracker (`MotionTracker.__init__`): two history
deques, the output flag, the fractional evidence counter and the cooldown
countdown.  `cooldown_frames` is a natural number: the source only ever sets
it to 30 and decrements it under a positivity guard. -/
structure MotionTracker where
  left_hand_history : List ℚ
  right_hand_history : List ℚ
  alternating_detected : Bool
  detection_frames : ℚ
  cooldown_frames : ℕ
deriving DecidableEq

/-- A freshly constructed tracker (`MotionTracker.__init__`). -/
def MotionTracker.fresh : MotionTracker :=
  { left_hand_history := []
    right_hand_history := []
    alternating_detected := false
    detection_frames := 0
    cooldown_frames := 0 }

/-- Embedding of `deque(maxlen=m).append x`: append on the right, evicting
the oldest entries once the capacity `m` is exceeded. -/
def dequeAppend (maxlen : ℕ) (h : List ℚ) (x : ℚ) : List ℚ :=
  let h' := h ++ [x]
  if maxlen < h'.length then h'.drop (h'.length - maxlen) else h'

/-- Python negative indexing `l[-k]` (meaningful when `1 ≤ k ≤ l.length`;
the source only evaluates it under a length guard). -/
def negIdx (l : List ℚ) (k : ℕ) : ℚ := l.getD (l.length - k) 0

/-- Embedding of `MotionTracker.update` (`src/motion_tracker.py` lines 15–70,
and identically `src/app.py` lines 27–82), parametrised by the deque capacity
`maxlen` — the only difference between the two copies (6 vs 8). -/
def updateWith (maxlen : ℕ) (t : MotionTracker) (left_y right_y : Option ℚ) :
    MotionTracker :=
  match left_y, right_y with
  | some ly, some ry =>
    let lh := dequeAppend maxlen t.left_hand_history ly
    let rh := dequeAppend maxlen t.right_hand_history ry
    if lh.length < 4 ∨ rh.length < 4 then
      if 0 < t.cooldown_frames then
        { t with left_hand_history := lh, right_hand_history := rh,
                 cooldown_frames := t.cooldown_frames - 1,
                 alternating_detected := true }
      else
        { t with left_hand_history := lh, right_hand_history := rh,
                 alternating_detected := false }
    else
      let left_movement := negIdx lh 1 - negIdx lh 4
      let right_movement := negIdx rh 1 - negIdx rh 4
      let movement_threshold : ℚ := 8/1000
      let left_is_moving := movement_threshold < |left_movement|
      let right_is_moving := movement_threshold < |right_movement|
      let qualifies := left_is_moving ∧ right_is_moving ∧
        left_movement * right_movement < 0
      let df := if qualifies then t.detection_frames + 1
        else if 0 < t.detection_frames then t.detection_frames - 1/2
        else t.detection_frames
      let cf := if qualifies then 30 else t.cooldown_frames
      if 3/2 ≤ df ∨ 0 < cf then
        { t with left_hand_history := lh, right_hand_history := rh,
                 detection_frames := df,
                 cooldown_frames := if 0 < cf then cf - 1 else cf,
                 alternating_detected := true }
      else
        { t with left_hand_history := lh, right_hand_history := rh,
                 detection_frames := df, cooldown_frames := cf,
                 alternating_detected := false }
  | _, _ =>
    if 0 < t.cooldown_frames then
      { t with left_hand_history := [], right_hand_history := [],
               cooldown_frames := t.cooldown_frames - 1,
               alternating_detected := true }
    else
      { t with left_hand_history := [], right_hand_history := [],
               alternating_detected := false, detection_frames := 0 }

/-- The `MotionTracker.update` of `src/motion_tracker.py` (deque maxlen 6). -/
def MotionTracker.update (t : MotionTracker) (left_y right_y : Option ℚ) :
    MotionTracker :=
  updateWith 6 t left_y right_y

/-- The inline `MotionTracker.update` of `src/app.py` (deque maxlen 8). -/
def appUpdate (t : MotionTracker) (left_y right_y : Option ℚ) : MotionTracker :=
  updateWith 8 t left_y right_y

/-- One frame of input fed to `update`, as a pair. -/
def stepWith (maxlen : ℕ) (t : MotionTracker) (p : Option ℚ × Option ℚ) :
    MotionTracker :=
  updateWith maxlen t p.1 p.2

/-- Run a tracker with capacity `maxlen` from state `t` over a list of frames. -/
def runFromWith (maxlen : ℕ) (t : MotionTracker) (inputs : List (Option ℚ × Option ℚ)) :
    MotionTracker :=
  inputs.foldl (stepWith maxlen) t

/-- Run a fresh tracker with capacity `maxlen` over a list of frames. -/
def runWith (maxlen : ℕ) (inputs : List (Option ℚ × Option ℚ)) : MotionTracker :=
  runFromWith maxlen MotionTracker.fresh inputs

/-- A tracker state is reachable when some input sequence drives a fresh
`motion_tracker.py` tracker to it. -/
def Reachable (t : MotionTracker) : Prop :=
  ∃ inputs, runWith 6 inputs = t

/-- The opposite-direction test of `motion_tracker.py` lines 53–57, on the
appended histories. -/
def qualifiesAt (lh rh : List ℚ) : Prop :=
  (8/1000 : ℚ) < |negIdx lh 1 - negIdx lh 4| ∧
  (8/1000 : ℚ) < |negIdx rh 1 - negIdx rh 4| ∧
  (negIdx lh 1 - negIdx lh 4) * (negIdx rh 1 - negIdx rh 4) < 0

instance (lh rh : List ℚ) : Decidable (qualifiesAt lh rh) := by
  unfold qualifiesAt
  infer_instance

/-- The last `m` entries of a list (a suffix). -/
def lastN (m : ℕ) (l : List ℚ) : List ℚ := l.drop (l.length - m)

/-- A concrete 21-landmark hand: middle tip raised, index/ring/pinky tips
below their bases. -/
def exampleHand : HandLandmarks :=
  ⟨[⟨0, 1⟩, ⟨0, 1⟩, ⟨0, 1⟩, ⟨0, 1⟩, ⟨0, 1⟩, ⟨0, 1⟩, ⟨0, 1⟩, ⟨0, 1⟩, ⟨0, 2⟩,
    ⟨0, 1⟩, ⟨0, 1⟩, ⟨0, 1⟩, ⟨0, 0⟩, ⟨0, 1⟩, ⟨0, 1⟩, ⟨0, 1⟩, ⟨0, 2⟩, ⟨0, 1⟩,
    ⟨0, 1⟩, ⟨0, 1⟩, ⟨0, 2⟩]⟩

/-- The tracker state after four `update(0.50, 0.50)` calls on a fresh tracker. -/
def fourHalves : MotionTracker :=
  ⟨[1/2, 1/2, 1/2, 1/2], [1/2, 1/2, 1/2, 1/2], false, 0, 0⟩

/-- The input keeps the two movement estimates on the same side of zero
whenever the call would reach the movement computation (both hands present,
both appended histories holding at least 4 entries). -/
def sameSignOk (t : MotionTracker) (p : Option ℚ × Option ℚ) : Prop :=
  match p with
  | (some ly, some ry) =>
    4 ≤ (dequeAppend 6 t.left_hand_history ly).length →
    4 ≤ (dequeAppend 6 t.right_hand_history ry).length →
    0 ≤ (negIdx (dequeAppend 6 t.left_hand_history ly) 1 -
         negIdx (dequeAppend 6 t.left_hand_history ly) 4) *
        (negIdx (dequeAppend 6 t.right_hand_history ry) 1 -
         negIdx (dequeAppend 6 t.right_hand_history ry) 4)
  | _ => True

instance (t : MotionTracker) (p : Option ℚ × Option ℚ) : Decidable (sameSignOk t p) := by
  unfold sameSignOk
  rcases p with ⟨_ | ly, _ | ry⟩ <;> infer_instance

/-- The predicate `sameSignOk` holds at every step along the run of `inputs`. -/
def pathOk : MotionTracker → List (Option ℚ × Option ℚ) → Prop
  | _, [] => True
  | t, p :: rest => sameSignOk t p ∧ pathOk (stepWith 6 t p) rest

instance : ∀ (t : MotionTracker) (inputs : List (Option ℚ × Option ℚ)),
    Decidable (pathOk t inputs)
  | _, [] => .isTrue trivial
  | t, p :: rest =>
    haveI := instDecidablePathOk (stepWith 6 t p) rest
    inferInstanceAs (Decidable (_ ∧ _))

/-- Claim C1 as stated, at one state and one call: in the post-state,
`alternating_detected` is true iff `detection_frames ≥ 1.5` or
`cooldown_frames > 0`, except that an absent hand with expired cooldown
resets `detection_frames` to 0 and the flag to false. -/
def C1holds (t : MotionTracker) (l r : Option ℚ) : Prop :=
  if (l = none ∨ r = none) ∧ t.cooldown_frames = 0 then
    (t.update l r).detection_frames = 0 ∧ (t.update l r).alternating_detected = false
  else
    ((t.update l r).alternating_detected = true ↔
      ((3/2 : ℚ) ≤ (t.update l r).detection_frames ∨ 0 < (t.update l r).cooldown_frames))

/-- Claim C1 quantified over all reachable states and calls. -/
def C1claim : Prop := ∀ t : MotionTracker, Reachable t → ∀ l r : Option ℚ, C1holds t l r

/-- The five-frame detection prefix of the counterexample trace. -/
def detectPrefix : List (Option ℚ × Option ℚ) :=
  [(some (1/2), some (1/2)), (some (1/2), some (1/2)), (some (1/2), some (1/2)),
   (some (1/2), some (1/2)), (some (2/5), some (3/5))]

/-- Simulation relation between the `motion_tracker.py` tracker (capacity 6)
and the `app.py` tracker (capacity 8): equal observable scalars, and the
6-history is the 6-suffix of the 8-history. -/
def simR (t u : MotionTracker) : Prop :=
  t.left_hand_history = lastN 6 u.left_hand_history ∧
  t.right_hand_history = lastN 6 u.right_hand_history ∧
  t.alternating_detected = u.alternating_detected ∧
  t.detection_frames = u.detection_frames ∧
  t.cooldown_frames = u.cooldown_frames

/-! ## Branch characterisations of `update` -/

/-- Absent branch (`left_y is None or right_y is None`, lines 18–28). -/
theorem updateWith_absent (m : ℕ) (t : MotionTracker) (l r : Option ℚ)
    (h : l = none ∨ r = none) :
    updateWith m t l r =
      if 0 < t.cooldown_frames then
        { t with left_hand_history := [], right_hand_history := [],
                 cooldown_frames := t.cooldown_frames - 1,
                 alternating_detected := true }
      else
        { t with left_hand_history := [], right_hand_history := [],
                 alternating_detected := false, detection_frames := 0 } := by
  rcases h with h | h
  · subst h; cases r <;> rfl
  · subst h; cases l <;> rfl

/-- Warm-up branch (history shorter than 4 after the append, lines 34–40). -/
theorem updateWith_warmup (m : ℕ) (t : MotionTracker) (ly ry : ℚ)
    (h : (dequeAppend m t.left_hand_history ly).length < 4 ∨
         (dequeAppend m t.right_hand_history ry).length < 4) :
    updateWith m t (some ly) (some ry) =
      if 0 < t.cooldown_frames then
        { t with left_hand_history := dequeAppend m t.left_hand_history ly,
                 right_hand_history := dequeAppend m t.right_hand_history ry,
                 cooldown_frames := t.cooldown_frames - 1,
                 alternating_detected := true }
      else
        { t with left_hand_history := dequeAppend m t.left_hand_history ly,
                 right_hand_history := dequeAppend m t.right_hand_history ry,
                 alternating_detected := false } := by
  simp only [updateWith]
  rw [if_pos h]

/-- Main branch, qualifying frame (lines 57–59 then 65–68). -/
theorem updateWith_qualify (m : ℕ) (t : MotionTracker) (ly ry : ℚ)
    (hlen : ¬((dequeAppend m t.left_hand_history ly).length < 4 ∨
              (dequeAppend m t.right_hand_history ry).length < 4))
    (hq : qualifiesAt (dequeAppend m t.left_hand_history ly)
                      (dequeAppend m t.right_hand_history ry)) :
    updateWith m t (some ly) (some ry) =
      { t with left_hand_history := dequeAppend m t.left_hand_history ly,
               right_hand_history := dequeAppend m t.right_hand_history ry,
               detection_frames := t.detection_frames + 1,
               cooldown_frames := 29,
               alternating_detected := true } := by
  obtain ⟨h1, h2, h3⟩ := hq
  have hcond : (8/1000 : ℚ) < |negIdx (dequeAppend m t.left_hand_history ly) 1 -
        negIdx (dequeAppend m t.left_hand_history ly) 4| ∧
      (8/1000 : ℚ) < |negIdx (dequeAppend m t.right_hand_history ry) 1 -
        negIdx (dequeAppend m t.right_hand_history ry) 4| ∧
      (negIdx (dequeAppend m t.left_hand_history ly) 1 -
        negIdx (dequeAppend m t.left_hand_history ly) 4) *
        (negIdx (dequeAppend m t.right_hand_history ry) 1 -
          negIdx (dequeAppend m t.right_hand_history ry) 4) < 0 := ⟨h1, h2, h3⟩
  simp only [updateWith]
  rw [if_neg hlen]
  simp only [if_pos hcond]
  rw [if_pos (Or.inr (by norm_num : (0:ℕ) < 30))]
  norm_num

/-- Main branch, non-qualifying frame (lines 60–62 then 65–70). -/
theorem updateWith_noqualify (m : ℕ) (t : MotionTracker) (ly ry : ℚ)
    (hlen : ¬((dequeAppend m t.left_hand_history ly).length < 4 ∨
              (dequeAppend m t.right_hand_history ry).length < 4))
    (hq : ¬ qualifiesAt (dequeAppend m t.left_hand_history ly)
                        (dequeAppend m t.right_hand_history ry)) :
    updateWith m t (some ly) (some ry) =
      (let df := if 0 < t.detection_frames then t.detection_frames - 1/2
                 else t.detection_frames
       if 3/2 ≤ df ∨ 0 < t.cooldown_frames then
        { t with left_hand_history := dequeAppend m t.left_hand_history ly,
                 right_hand_history := dequeAppend m t.right_hand_history ry,
                 detection_frames := df,
                 cooldown_frames := t.cooldown_frames - 1,
                 alternating_detected := true }
       else
        { t with left_hand_history := dequeAppend m t.left_hand_history ly,
                 right_hand_history := dequeAppend m t.right_hand_history ry,
                 detection_frames := df,
                 cooldown_frames := t.cooldown_frames,
                 alternating_detected := false }) := by
  have hq' : ¬((8/1000 : ℚ) < |negIdx (dequeAppend m t.left_hand_history ly) 1 -
        negIdx (dequeAppend m t.left_hand_history ly) 4| ∧
      (8/1000 : ℚ) < |negIdx (dequeAppend m t.right_hand_history ry) 1 -
        negIdx (dequeAppend m t.right_hand_history ry) 4| ∧
      (negIdx (dequeAppend m t.left_hand_history ly) 1 -
        negIdx (dequeAppend m t.left_hand_history ly) 4) *
        (negIdx (dequeAppend m t.right_hand_history ry) 1 -
          negIdx (dequeAppend m t.right_hand_history ry) 4) < 0) := hq
  simp only [updateWith]
  rw [if_neg hlen]
  simp only [if_neg hq']
  by_cases hd : (3/2 : ℚ) ≤ (if 0 < t.detection_frames then t.detection_frames - 1/2
      else t.detection_frames) ∨ 0 < t.cooldown_frames
  · rw [if_pos hd, if_pos hd]
    rcases Nat.eq_zero_or_pos t.cooldown_frames with h0 | h0
    · rw [if_neg (show ¬ (0 < t.cooldown_frames) by omega)]
      simp [h0]
    · rw [if_pos h0]
  · rw [if_neg hd, if_neg hd]

/-- Field values of `update` on a non-qualifying main-branch frame. -/
theorem updateWith_noqualify_fields (m : ℕ) (t : MotionTracker) (ly ry : ℚ)
    (hlen : ¬((dequeAppend m t.left_hand_history ly).length < 4 ∨
              (dequeAppend m t.right_hand_history ry).length < 4))
    (hq : ¬ qualifiesAt (dequeAppend m t.left_hand_history ly)
                        (dequeAppend m t.right_hand_history ry)) :
    (updateWith m t (some ly) (some ry)).detection_frames =
      (if 0 < t.detection_frames then t.detection_frames - 1/2
       else t.detection_frames) ∧
    (updateWith m t (some ly) (some ry)).cooldown_frames =
      (if (3/2 : ℚ) ≤ (if 0 < t.detection_frames then t.detection_frames - 1/2
          else t.detection_frames) ∨ 0 < t.cooldown_frames
       then t.cooldown_frames - 1 else t.cooldown_frames) ∧
    ((updateWith m t (some ly) (some ry)).alternating_detected = true ↔
      ((3/2 : ℚ) ≤ (if 0 < t.detection_frames then t.detection_frames - 1/2
          else t.detection_frames) ∨ 0 < t.cooldown_frames)) := by
  rw [updateWith_noqualify m t ly ry hlen hq]
  by_cases hdec : (3/2 : ℚ) ≤ (if 0 < t.detection_frames then t.detection_frames - 1/2
      else t.detection_frames) ∨ 0 < t.cooldown_frames
  · rw [if_pos hdec]
    exact ⟨rfl, by rw [if_pos hdec], iff_of_true rfl hdec⟩
  · rw [if_neg hdec]
    exact ⟨rfl, by rw [if_neg hdec], iff_of_false (by simp) hdec⟩

/-- In both present-hands branches, the new histories are the appended deques. -/
theorem updateWith_present_histories (m : ℕ) (t : MotionTracker) (ly ry : ℚ) :
    (updateWith m t (some ly) (some ry)).left_hand_history =
      dequeAppend m t.left_hand_history ly ∧
    (updateWith m t (some ly) (some ry)).right_hand_history =
      dequeAppend m t.right_hand_history ry := by
  simp only [updateWith]
  split_ifs <;> simp

/-! ## List helpers for the bounded histories -/

theorem dequeAppend_eq_lastN (m : ℕ) (h : List ℚ) (x : ℚ) :
    dequeAppend m h x = lastN m (h ++ [x]) := by
  simp only [dequeAppend, lastN]
  split_ifs with h1
  · rfl
  · rw [Nat.sub_eq_zero_of_le (le_of_not_lt h1), List.drop_zero]

theorem lastN_length (m : ℕ) (l : List ℚ) : (lastN m l).length = min l.length m := by
  simp only [lastN, List.length_drop]
  omega

theorem dequeAppend_length (m : ℕ) (h : List ℚ) (x : ℚ) :
    (dequeAppend m h x).length = min (h.length + 1) m := by
  rw [dequeAppend_eq_lastN, lastN_length]
  simp

theorem dequeAppend_full_evicts (h : List ℚ) (x : ℚ) (hl : h.length = 6) :
    dequeAppend 6 h x = h.tail ++ [x] := by
  rw [dequeAppend_eq_lastN]
  unfold lastN
  rw [List.drop_append_eq_append_drop]
  simp [hl, List.drop_one]

theorem lastN_lastN (a b : ℕ) (l : List ℚ) : lastN a (lastN b l) = lastN (min a b) l := by
  simp only [lastN, List.drop_drop, List.length_drop]
  congr 1
  omega

theorem lastN_append_single (m : ℕ) (hm : 1 ≤ m) (l : List ℚ) (x : ℚ) :
    lastN m (l ++ [x]) = lastN (m - 1) l ++ [x] := by
  simp only [lastN, List.length_append, List.length_cons, List.length_nil]
  rw [List.drop_append_eq_append_drop]
  congr 1
  · congr 1
    omega
  · rw [show l.length + 1 - m - l.length = 0 from by omega, List.drop_zero]

theorem negIdx_lastN (m k : ℕ) (l : List ℚ) (hkm : k ≤ m) (hkl : k ≤ l.length) :
    negIdx (lastN m l) k = negIdx l k := by
  simp only [negIdx, lastN, List.getD_eq_getElem?_getD, List.getElem?_drop,
    List.length_drop]
  have harith : l.length - m + (l.length - (l.length - m) - k) = l.length - k := by omega
  rw [harith]

theorem runWith_append (m : ℕ) (l1 l2 : List (Option ℚ × Option ℚ)) :
    runWith m (l1 ++ l2) = runFromWith m (runWith m l1) l2 := by
  simp [runWith, runFromWith, List.foldl_append]

/-- Feeding `k` absent frames while `k ≤ cooldown_frames` keeps the flag
asserted and counts the cooldown down by `k`, clearing the histories. -/
theorem absent_streak (m k : ℕ) (t : MotionTracker) (h1 : 1 ≤ k)
    (hk : k ≤ t.cooldown_frames) :
    runFromWith m t (List.replicate k (none, none)) =
      { t with left_hand_history := [], right_hand_history := [],
               cooldown_frames := t.cooldown_frames - k,
               alternating_detected := true } := by
  induction k generalizing t with
  | zero => omega
  | succ n ih =>
    have hstep : stepWith m t (none, none) =
        { t with left_hand_history := [], right_hand_history := [],
                 cooldown_frames := t.cooldown_frames - 1,
                 alternating_detected := true } := by
      rw [stepWith, updateWith_absent m t none none (Or.inl rfl),
        if_pos (by omega : 0 < t.cooldown_frames)]
    rw [List.replicate_succ]
    simp only [runFromWith, List.foldl_cons]
    rw [show stepWith m t ((none : Option ℚ), (none : Option ℚ)) =
      { t with left_hand_history := [], right_hand_history := [],
               cooldown_frames := t.cooldown_frames - 1,
               alternating_detected := true } from hstep]
    rcases Nat.eq_zero_or_pos n with hn | hn
    · subst hn
      simp
    · have hres := ih
        { t with left_hand_history := [], right_hand_history := [],
                 cooldown_frames := t.cooldown_frames - 1,
                 alternating_detected := true }
        hn (by simp; omega)
      simp only [runFromWith] at hres
      rw [hres]
      have harith : t.cooldown_frames - 1 - n = t.cooldown_frames - (n + 1) := by omega
      simp [harith]

/-! ## Claim C4 — static pose classifier -/

/-- Claim C4: for a hand observation with at least 21 landmarks,
`is_middle_finger_up` returns true iff the middle tip is strictly above its
base (landmark 12 y < landmark 10 y) and each of index, ring and pinky tip is
strictly below its base joint; the thumb condition is computed by the source
but does not appear in this characterisation. -/
theorem middle_finger_up_iff (hand : HandLandmarks) (h : 21 ≤ hand.landmark.length) :
    (is_middle_finger_up hand = true ↔
      ((lmAt hand.landmark 12).y < (lmAt hand.landmark 10).y ∧
       (lmAt hand.landmark 8).y > (lmAt hand.landmark 6).y ∧
       (lmAt hand.landmark 16).y > (lmAt hand.landmark 14).y ∧
       (lmAt hand.landmark 20).y > (lmAt hand.landmark 18).y)) := by
  simp [is_middle_finger_up, Bool.and_eq_true, decide_eq_true_iff, and_assoc]

/-- Witness for claim C4 at `exampleHand`. -/
theorem middle_finger_up_iff_witness : is_middle_finger_up exampleHand = true :=
  (middle_finger_up_iff exampleHand (by norm_num [exampleHand])).mpr
    (by norm_num [exampleHand, lmAt, List.getD])

/-! ## Claim C6 — absent-hand handling -/

/-- Claim C6: a call with an absent hand (either side missing) clears both
histories and appends nothing; under cooldown it decrements the counter and
forces the flag true (leaving `detection_frames` alone), otherwise it clears
the flag and resets `detection_frames`; the function is total, so no
exception can be raised. -/
theorem update_absent_contract (t : MotionTracker) (l r : Option ℚ)
    (h : l = none ∨ r = none) :
    (t.update l r).left_hand_history = [] ∧
    (t.update l r).right_hand_history = [] ∧
    (0 < t.cooldown_frames →
      (t.update l r).cooldown_frames = t.cooldown_frames - 1 ∧
      (t.update l r).alternating_detected = true ∧
      (t.update l r).detection_frames = t.detection_frames) ∧
    (t.cooldown_frames = 0 →
      (t.update l r).alternating_detected = false ∧
      (t.update l r).detection_frames = 0 ∧
      (t.update l r).cooldown_frames = 0) := by
  rw [MotionTracker.update, updateWith_absent 6 t l r h]
  by_cases h0 : 0 < t.cooldown_frames
  · have hne : ¬ t.cooldown_frames = 0 := by omega
    simp [h0, hne]
  · have h0' : t.cooldown_frames = 0 := by omega
    simp [h0, h0']

/-- Witness for claim C6: a tracker in cooldown, right hand absent. -/
theorem update_absent_contract_witness :
    ((⟨[1], [2], true, 3, 5⟩ : MotionTracker).update (some 7) none).left_hand_history = [] ∧
    ((⟨[1], [2], true, 3, 5⟩ : MotionTracker).update (some 7) none).cooldown_frames = 5 - 1 ∧
    ((⟨[1], [2], true, 3, 5⟩ : MotionTracker).update (some 7) none).alternating_detected = true := by
  obtain ⟨h1, _, h3, _⟩ :=
    update_absent_contract ⟨[1], [2], true, 3, 5⟩ (some 7) none (Or.inr rfl)
  exact ⟨h1, (h3 (by norm_num)).1, (h3 (by norm_num)).2.1⟩

/-! ## Claim C7 — ring-buffer histories -/

/-- Claim C7: after every call to `update` each history holds at most 6
entries, and appending to a full history of 6 entries evicts the oldest one
(ring-buffer semantics). -/
theorem update_history_ring_buffer (t : MotionTracker) (l r : Option ℚ) :
    ((t.update l r).left_hand_history.length ≤ 6 ∧
     (t.update l r).right_hand_history.length ≤ 6) ∧
    (∀ ly ry, l = some ly → r = some ry →
      (t.left_hand_history.length = 6 →
        (t.update l r).left_hand_history = t.left_hand_history.tail ++ [ly]) ∧
      (t.right_hand_history.length = 6 →
        (t.update l r).right_hand_history = t.right_hand_history.tail ++ [ry])) := by
  constructor
  · by_cases habs : l = none ∨ r = none
    · rw [MotionTracker.update, updateWith_absent 6 t l r habs]
      split_ifs <;> simp
    · push_neg at habs
      obtain ⟨ly, hly⟩ := Option.ne_none_iff_exists'.mp habs.1
      obtain ⟨ry, hry⟩ := Option.ne_none_iff_exists'.mp habs.2
      subst hly hry
      rw [MotionTracker.update]
      obtain ⟨e1, e2⟩ := updateWith_present_histories 6 t ly ry
      rw [e1, e2, dequeAppend_length, dequeAppend_length]
      omega
  · intro ly ry hly hry
    subst hly hry
    rw [MotionTracker.update]
    obtain ⟨e1, e2⟩ := updateWith_present_histories 6 t ly ry
    constructor
    · intro hl6
      rw [e1, dequeAppend_full_evicts t.left_hand_history ly hl6]
    · intro hr6
      rw [e2, dequeAppend_full_evicts t.right_hand_history ry hr6]

/-- Witness for claim C7 at a full six-entry history. -/
theorem update_history_ring_buffer_witness :
    ((⟨[1, 2, 3, 4, 5, 6], [1, 2, 3, 4, 5, 6], false, 0, 0⟩ : MotionTracker).update
        (some 7) (some 8)).left_hand_history =
      ([1, 2, 3, 4, 5, 6] : List ℚ).tail ++ [7] ∧
    ((⟨[1, 2, 3, 4, 5, 6], [1, 2, 3, 4, 5, 6], false, 0, 0⟩ : MotionTracker).update
        (some 7) (some 8)).left_hand_history.length ≤ 6 := by
  obtain ⟨hb, hev⟩ :=
    update_history_ring_buffer ⟨[1, 2, 3, 4, 5, 6], [1, 2, 3, 4, 5, 6], false, 0, 0⟩
      (some 7) (some 8)
  exact ⟨(hev 7 8 rfl rfl).1 rfl, hb.1⟩

/-! ## Claim C2 — opposite motion triggers detection -/

/-- Claim C2: with both histories already holding at least 3 entries, a call
whose appended histories move by more than the threshold in opposite
directions (left falling by more than 0.008 over the last 4 samples, right
rising by more than 0.008) asserts the flag, increments `detection_frames`
by 1, and leaves `cooldown_frames = 29` (set to 30, then decremented once
within the same call). -/
theorem opposite_motion_detects (t : MotionTracker) (ly ry : ℚ)
    (hl : 3 ≤ t.left_hand_history.length) (hr : 3 ≤ t.right_hand_history.length)
    (hml : negIdx (dequeAppend 6 t.left_hand_history ly) 1 -
           negIdx (dequeAppend 6 t.left_hand_history ly) 4 < -(8/1000))
    (hmr : (8/1000 : ℚ) < negIdx (dequeAppend 6 t.right_hand_history ry) 1 -
           negIdx (dequeAppend 6 t.right_hand_history ry) 4) :
    (t.update (some ly) (some ry)).alternating_detected = true ∧
    (t.update (some ly) (some ry)).detection_frames = t.detection_frames + 1 ∧
    (t.update (some ly) (some ry)).cooldown_frames = 29 := by
  have hlen : ¬((dequeAppend 6 t.left_hand_history ly).length < 4 ∨
      (dequeAppend 6 t.right_hand_history ry).length < 4) := by
    rw [dequeAppend_length, dequeAppend_length]
    omega
  have hq : qualifiesAt (dequeAppend 6 t.left_hand_history ly)
      (dequeAppend 6 t.right_hand_history ry) := by
    refine ⟨?_, ?_, ?_⟩
    · rw [abs_of_neg (by linarith)]
      linarith
    · rw [abs_of_pos (by linarith)]
      linarith
    · exact mul_neg_of_neg_of_pos (by linarith) (by linarith)
  rw [MotionTracker.update, updateWith_qualify 6 t ly ry hlen hq]
  exact ⟨rfl, rfl, rfl⟩

/-- Witness for claim C2: the spec scenario — four identical frames produce no
detection, then `update(0.40, 0.60)` detects with `cooldown_frames = 29`. -/
theorem opposite_motion_detects_witness :
    runWith 6 [(some (1/2), some (1/2)), (some (1/2), some (1/2)),
               (some (1/2), some (1/2)), (some (1/2), some (1/2))] = fourHalves ∧
    fourHalves.alternating_detected = false ∧
    (fourHalves.update (some (2/5)) (some (3/5))).alternating_detected = true ∧
    (fourHalves.update (some (2/5)) (some (3/5))).detection_frames =
      fourHalves.detection_frames + 1 ∧
    (fourHalves.update (some (2/5)) (some (3/5))).cooldown_frames = 29 := by
  refine ⟨?_, rfl, ?_⟩
  · norm_num [runWith, runFromWith, stepWith, updateWith, dequeAppend, negIdx,
      MotionTracker.fresh, fourHalves]
  · exact opposite_motion_detects fourHalves (2/5) (3/5)
      (by norm_num [fourHalves]) (by norm_num [fourHalves])
      (by norm_num [fourHalves, dequeAppend, negIdx])
      (by norm_num [fourHalves, dequeAppend, negIdx])

/-! ## Claim C3 — cooldown expiry under absent hands -/

/-- Claim C3: starting from a post-detection state with `cooldown_frames = 29`,
29 absent-hand calls keep the flag true after each call, and the 30th absent
call clears the flag and resets `detection_frames` to 0. -/
theorem cooldown_expiry (t : MotionTracker) (h : t.cooldown_frames = 29) :
    (∀ k, 1 ≤ k → k ≤ 29 →
      (runFromWith 6 t (List.replicate k (none, none))).alternating_detected = true) ∧
    (runFromWith 6 t (List.replicate 30 (none, none))).alternating_detected = false ∧
    (runFromWith 6 t (List.replicate 30 (none, none))).detection_frames = 0 := by
  constructor
  · intro k hk1 hk29
    rw [absent_streak 6 k t hk1 (by omega)]
  · have hsplit : runFromWith 6 t (List.replicate 30 (none, none)) =
        runFromWith 6 (runFromWith 6 t (List.replicate 29 (none, none)))
          [(none, none)] := by
      rw [show (30:ℕ) = 29 + 1 from rfl, List.replicate_succ']
      simp [runFromWith, List.foldl_append]
    rw [hsplit, absent_streak 6 29 t (by norm_num) (by omega)]
    simp only [runFromWith, List.foldl_cons, List.foldl_nil]
    rw [stepWith, updateWith_absent 6 _ none none (Or.inl rfl)]
    rw [if_neg (by simp; omega)]
    exact ⟨rfl, rfl⟩

/-- Witness for claim C3 at a concrete post-detection state. -/
theorem cooldown_expiry_witness :
    (runFromWith 6 ⟨[], [], true, 1, 29⟩
        (List.replicate 29 (none, none))).alternating_detected = true ∧
    (runFromWith 6 ⟨[], [], true, 1, 29⟩
        (List.replicate 30 (none, none))).alternating_detected = false ∧
    (runFromWith 6 ⟨[], [], true, 1, 29⟩
        (List.replicate 30 (none, none))).detection_frames = 0 := by
  obtain ⟨ha, hb, hc⟩ := cooldown_expiry ⟨[], [], true, 1, 29⟩ rfl
  exact ⟨ha 29 (by norm_num) (by norm_num), hb, hc⟩

/-! ## Claim C8 — warm-up leaves `detection_frames` unchanged -/

/-- Invariant carried while feeding at most three present frames to a fresh
tracker: nothing detected and histories still short. -/
theorem warmup_prefix_aux (inputs : List (ℚ × ℚ)) :
    ∀ t : MotionTracker, t.cooldown_frames = 0 → t.detection_frames = 0 →
      t.alternating_detected = false →
      t.left_hand_history.length + inputs.length ≤ 3 →
      t.right_hand_history.length + inputs.length ≤ 3 →
      ∀ n : ℕ,
        (runFromWith 6 t ((inputs.map
            (fun p => ((some p.1 : Option ℚ), (some p.2 : Option ℚ)))).take n)).detection_frames = 0 ∧
        (runFromWith 6 t ((inputs.map
            (fun p => ((some p.1 : Option ℚ), (some p.2 : Option ℚ)))).take n)).alternating_detected = false := by
  induction inputs with
  | nil =>
    intro t hc hd hb _ _ n
    simp [runFromWith, hd, hb]
  | cons p rest ih =>
    intro t hc hd hb hlb hrb n
    cases n with
    | zero => simp [runFromWith, hd, hb]
    | succ n' =>
      simp only [List.map_cons, List.take_succ_cons, runFromWith, List.foldl_cons]
      have hwu : (dequeAppend 6 t.left_hand_history p.1).length < 4 ∨
          (dequeAppend 6 t.right_hand_history p.2).length < 4 := by
        rw [dequeAppend_length]
        left
        simp only [List.length_cons] at hlb
        omega
      have hstep : stepWith 6 t (some p.1, some p.2) =
          { t with left_hand_history := dequeAppend 6 t.left_hand_history p.1,
                   right_hand_history := dequeAppend 6 t.right_hand_history p.2,
                   alternating_detected := false } := by
        rw [stepWith]
        show updateWith 6 t (some p.1) (some p.2) = _
        rw [updateWith_warmup 6 t p.1 p.2 hwu, if_neg (by omega)]
      rw [hstep]
      have := ih
        { t with left_hand_history := dequeAppend 6 t.left_hand_history p.1,
                 right_hand_history := dequeAppend 6 t.right_hand_history p.2,
                 alternating_detected := false }
        hc hd rfl ?_ ?_ n'
      · simpa [runFromWith] using this
      · simp only [List.length_cons] at hlb
        simp [dequeAppend_length]
        omega
      · simp only [List.length_cons] at hrb
        simp [dequeAppend_length]
        omega

/-- Claim C8: a warm-up call (either appended history still shorter than 4)
leaves `detection_frames` untouched; and from a fresh tracker, at most three
present frames never raise `detection_frames` above 0 nor assert the flag,
after any prefix of the sequence. -/
theorem warmup_no_detection :
    (∀ (t : MotionTracker) (ly ry : ℚ),
      ((dequeAppend 6 t.left_hand_history ly).length < 4 ∨
       (dequeAppend 6 t.right_hand_history ry).length < 4) →
      (t.update (some ly) (some ry)).detection_frames = t.detection_frames) ∧
    (∀ inputs : List (ℚ × ℚ), inputs.length ≤ 3 → ∀ n : ℕ,
      (runWith 6 ((inputs.map
          (fun p => ((some p.1 : Option ℚ), (some p.2 : Option ℚ)))).take n)).detection_frames = 0 ∧
      (runWith 6 ((inputs.map
          (fun p => ((some p.1 : Option ℚ), (some p.2 : Option ℚ)))).take n)).alternating_detected = false) := by
  constructor
  · intro t ly ry hwu
    rw [MotionTracker.update, updateWith_warmup 6 t ly ry hwu]
    split_ifs <;> rfl
  · intro inputs hlen n
    exact warmup_prefix_aux inputs MotionTracker.fresh rfl rfl rfl
      (by simpa [MotionTracker.fresh] using hlen)
      (by simpa [MotionTracker.fresh] using hlen) n

/-- Witness for claim C8: a first frame on a fresh tracker, and a
three-frame sequence. -/
theorem warmup_no_detection_witness :
    (MotionTracker.fresh.update (some 0) (some 0)).detection_frames =
      MotionTracker.fresh.detection_frames ∧
    (runWith 6 (([((0:ℚ), (0:ℚ)), (1, 1), (2, 2)].map
        (fun p => ((some p.1 : Option ℚ), (some p.2 : Option ℚ)))).take 3)).detection_frames = 0 ∧
    (runWith 6 (([((0:ℚ), (0:ℚ)), (1, 1), (2, 2)].map
        (fun p => ((some p.1 : Option ℚ), (some p.2 : Option ℚ)))).take 3)).alternating_detected = false := by
  obtain ⟨h1, h2⟩ := warmup_no_detection
  refine ⟨h1 MotionTracker.fresh 0 0 ?_, (h2 [(0, 0), (1, 1), (2, 2)] (by norm_num) 3).1,
    (h2 [(0, 0), (1, 1), (2, 2)] (by norm_num) 3).2⟩
  rw [dequeAppend_length]
  left
  norm_num [MotionTracker.fresh]

/-! ## Claim C5 — same-direction motion never triggers -/

/-- A same-sign step preserves the all-clear state. -/
theorem sameSign_step (t : MotionTracker) (p : Option ℚ × Option ℚ)
    (hd : t.detection_frames = 0) (hc : t.cooldown_frames = 0)
    (hss : sameSignOk t p) :
    (stepWith 6 t p).detection_frames = 0 ∧ (stepWith 6 t p).cooldown_frames = 0 ∧
    (stepWith 6 t p).alternating_detected = false := by
  rcases p with ⟨_ | ly, _ | ry⟩
  · have he : stepWith 6 t (none, none) = updateWith 6 t none none := rfl
    rw [he, updateWith_absent 6 t none none (Or.inl rfl), if_neg (by omega)]
    exact ⟨rfl, hc, rfl⟩
  · have he : stepWith 6 t (none, some ry) = updateWith 6 t none (some ry) := rfl
    rw [he, updateWith_absent 6 t none (some ry) (Or.inl rfl), if_neg (by omega)]
    exact ⟨rfl, hc, rfl⟩
  · have he : stepWith 6 t (some ly, none) = updateWith 6 t (some ly) none := rfl
    rw [he, updateWith_absent 6 t (some ly) none (Or.inr rfl), if_neg (by omega)]
    exact ⟨rfl, hc, rfl⟩
  · have he : stepWith 6 t (some ly, some ry) = updateWith 6 t (some ly) (some ry) := rfl
    rw [he]
    by_cases hlen : (dequeAppend 6 t.left_hand_history ly).length < 4 ∨
        (dequeAppend 6 t.right_hand_history ry).length < 4
    · rw [updateWith_warmup 6 t ly ry hlen, if_neg (by omega)]
      exact ⟨hd, hc, rfl⟩
    · have hprod := hss (by omega) (by omega)
      have hq : ¬ qualifiesAt (dequeAppend 6 t.left_hand_history ly)
          (dequeAppend 6 t.right_hand_history ry) := by
        rintro ⟨_, _, hlt⟩
        linarith
      obtain ⟨f1, f2, f3⟩ := updateWith_noqualify_fields 6 t ly ry hlen hq
      have hdec : ¬ ((3/2 : ℚ) ≤ (if 0 < t.detection_frames then t.detection_frames - 1/2
          else t.detection_frames) ∨ 0 < t.cooldown_frames) := by
        rw [hd, hc]
        norm_num
      refine ⟨?_, ?_, ?_⟩
      · rw [f1, hd]
        norm_num
      · rw [f2, if_neg hdec, hc]
      · cases hbool : (updateWith 6 t (some ly) (some ry)).alternating_detected
        · rfl
        · exact absurd (f3.mp hbool) hdec

/-- Run-level invariant for claim C5. -/
theorem pathOk_no_detection_aux (inputs : List (Option ℚ × Option ℚ)) :
    ∀ t : MotionTracker, t.detection_frames = 0 → t.cooldown_frames = 0 →
      t.alternating_detected = false → pathOk t inputs → ∀ n : ℕ,
      (runFromWith 6 t (inputs.take n)).detection_frames = 0 ∧
      (runFromWith 6 t (inputs.take n)).cooldown_frames = 0 ∧
      (runFromWith 6 t (inputs.take n)).alternating_detected = false := by
  induction inputs with
  | nil =>
    intro t hd hc hb _ n
    simp [runFromWith, hd, hc, hb]
  | cons p rest ih =>
    intro t hd hc hb hpath n
    cases n with
    | zero => simp [runFromWith, hd, hc, hb]
    | succ n' =>
      simp only [List.take_succ_cons, runFromWith, List.foldl_cons]
      obtain ⟨hss, hrest⟩ := hpath
      obtain ⟨h1, h2, h3⟩ := sameSign_step t p hd hc hss
      have := ih (stepWith 6 t p) h1 h2 h3 hrest n'
      simpa [runFromWith] using this

/-- Claim C5: starting from a fresh tracker, if on every call that reaches
the movement computation the two movement estimates have the same sign
(product nonnegative), then after every call `detection_frames` is 0,
`cooldown_frames` is 0 and `alternating_detected` is false, regardless of the
magnitude of the movements. -/
theorem same_direction_never_detects (inputs : List (Option ℚ × Option ℚ))
    (h : pathOk MotionTracker.fresh inputs) (n : ℕ) :
    (runWith 6 (inputs.take n)).detection_frames = 0 ∧
    (runWith 6 (inputs.take n)).cooldown_frames = 0 ∧
    (runWith 6 (inputs.take n)).alternating_detected = false :=
  pathOk_no_detection_aux inputs MotionTracker.fresh rfl rfl rfl h n

/-- Witness for claim C5: both hands sweeping downward together with
movement magnitude 3, far beyond the 0.008 threshold. -/
theorem same_direction_never_detects_witness :
    (runWith 6 ([(some 0, some 0), (some 1, some 1), (some 2, some 2),
        (some 3, some 3), (some 4, some 4)].take 5)).detection_frames = 0 ∧
    (runWith 6 ([(some 0, some 0), (some 1, some 1), (some 2, some 2),
        (some 3, some 3), (some 4, some 4)].take 5)).cooldown_frames = 0 ∧
    (runWith 6 ([(some 0, some 0), (some 1, some 1), (some 2, some 2),
        (some 3, some 3), (some 4, some 4)].take 5)).alternating_detected = false := by
  have h3 : |(3 : ℚ)| = 3 := abs_of_pos (by norm_num)
  exact same_direction_never_detects _
    (by norm_num [pathOk, sameSignOk, stepWith, updateWith, dequeAppend, negIdx,
      MotionTracker.fresh, h3]) 5

/-! ## Claim C9 — `detection_frames` stays a nonnegative half-integer -/

/-- Every step keeps `detection_frames` of the form `m / 2` with `m : ℕ`. -/
theorem halfnat_step (t : MotionTracker) (p : Option ℚ × Option ℚ)
    (h : ∃ m : ℕ, t.detection_frames = (m : ℚ) / 2) :
    ∃ m : ℕ, (stepWith 6 t p).detection_frames = (m : ℚ) / 2 := by
  obtain ⟨m, hm⟩ := h
  rcases p with ⟨_ | ly, _ | ry⟩
  · have he : stepWith 6 t (none, none) = updateWith 6 t none none := rfl
    rw [he, updateWith_absent 6 t none none (Or.inl rfl)]
    split_ifs
    · exact ⟨m, hm⟩
    · exact ⟨0, by norm_num⟩
  · have he : stepWith 6 t (none, some ry) = updateWith 6 t none (some ry) := rfl
    rw [he, updateWith_absent 6 t none (some ry) (Or.inl rfl)]
    split_ifs
    · exact ⟨m, hm⟩
    · exact ⟨0, by norm_num⟩
  · have he : stepWith 6 t (some ly, none) = updateWith 6 t (some ly) none := rfl
    rw [he, updateWith_absent 6 t (some ly) none (Or.inr rfl)]
    split_ifs
    · exact ⟨m, hm⟩
    · exact ⟨0, by norm_num⟩
  · have he : stepWith 6 t (some ly, some ry) = updateWith 6 t (some ly) (some ry) := rfl
    rw [he]
    by_cases hlen : (dequeAppend 6 t.left_hand_history ly).length < 4 ∨
        (dequeAppend 6 t.right_hand_history ry).length < 4
    · rw [updateWith_warmup 6 t ly ry hlen]
      split_ifs
      · exact ⟨m, hm⟩
      · exact ⟨m, hm⟩
    · by_cases hq : qualifiesAt (dequeAppend 6 t.left_hand_history ly)
          (dequeAppend 6 t.right_hand_history ry)
      · rw [updateWith_qualify 6 t ly ry hlen hq]
        refine ⟨m + 2, ?_⟩
        show t.detection_frames + 1 = ((m + 2 : ℕ) : ℚ) / 2
        rw [hm]
        push_cast
        ring
      · obtain ⟨f1, _, _⟩ := updateWith_noqualify_fields 6 t ly ry hlen hq
        rw [f1]
        by_cases hpos : 0 < t.detection_frames
        · have hm1 : 1 ≤ m := by
            by_contra hcon
            have hm0 : m = 0 := by omega
            rw [hm0] at hm
            rw [hm] at hpos
            norm_num at hpos
          refine ⟨m - 1, ?_⟩
          rw [if_pos hpos, hm, Nat.cast_sub hm1]
          push_cast
          ring
        · exact ⟨m, by rw [if_neg hpos, hm]⟩

/-- Run-level invariant for claim C9. -/
theorem halfnat_run_aux (inputs : List (Option ℚ × Option ℚ)) :
    ∀ t : MotionTracker, (∃ m : ℕ, t.detection_frames = (m : ℚ) / 2) → ∀ n : ℕ,
      ∃ m : ℕ, (runFromWith 6 t (inputs.take n)).detection_frames = (m : ℚ) / 2 := by
  induction inputs with
  | nil =>
    intro t ht n
    simpa [runFromWith] using ht
  | cons p rest ih =>
    intro t ht n
    cases n with
    | zero => simpa [runFromWith] using ht
    | succ n' =>
      simp only [List.take_succ_cons, runFromWith, List.foldl_cons]
      have := ih (stepWith 6 t p) (halfnat_step t p ht) n'
      simpa [runFromWith] using this

/-- Claim C9: along every run from a fresh tracker, after every call
`detection_frames` is a nonnegative multiple of one half (it is incremented
by 1 on qualifying frames, decremented by 0.5 only when positive, and reset
to 0 on absence outside cooldown, so it never becomes negative). -/
theorem detection_frames_half_integer (inputs : List (Option ℚ × Option ℚ)) (n : ℕ) :
    0 ≤ (runWith 6 (inputs.take n)).detection_frames ∧
    ∃ m : ℕ, (runWith 6 (inputs.take n)).detection_frames = (m : ℚ) / 2 := by
  obtain ⟨m, hm⟩ := halfnat_run_aux inputs MotionTracker.fresh
    ⟨0, by norm_num [MotionTracker.fresh]⟩ n
  have hm' : (runWith 6 (inputs.take n)).detection_frames = (m : ℚ) / 2 := hm
  refine ⟨?_, ⟨m, hm'⟩⟩
  rw [hm']
  positivity

/-! ## Claim C1 — the output-flag invariant -/

/-- Counterexample to claim C1 as stated: drive a fresh tracker to a
detection (cooldown 29), feed 28 absent frames (cooldown 1, reachable state
`⟨[], [], true, 1, 1⟩`), then call with absent hands once more.  The call
decrements the cooldown to 0 *after* deciding the flag, so the post-state has
`alternating_detected = true` while `detection_frames = 1 < 1.5` and
`cooldown_frames = 0`, and the exception clause does not apply because the
cooldown had not yet expired at entry. -/
theorem alternating_detected_iff_counterexample : ¬ C1claim := by
  intro hcl
  have hc : |(1/10 : ℚ)| = 1/10 := abs_of_pos (by norm_num)
  have h5 : runWith 6 detectPrefix =
      ⟨[1/2, 1/2, 1/2, 1/2, 2/5], [1/2, 1/2, 1/2, 1/2, 3/5], true, 1, 29⟩ := by
    norm_num [detectPrefix, runWith, runFromWith, stepWith, updateWith, dequeAppend,
      negIdx, MotionTracker.fresh, hc]
  have hstreak := absent_streak 6 28
    (⟨[1/2, 1/2, 1/2, 1/2, 2/5], [1/2, 1/2, 1/2, 1/2, 3/5], true, 1, 29⟩ : MotionTracker)
    (by norm_num) (by norm_num)
  have hreach : Reachable ⟨[], [], true, 1, 1⟩ := by
    refine ⟨detectPrefix ++ List.replicate 28 (none, none), ?_⟩
    rw [runWith_append, h5, hstreak]
    norm_num
  have hinst := hcl ⟨[], [], true, 1, 1⟩ hreach none none
  rw [C1holds, if_neg (by simp)] at hinst
  have hupd : (⟨[], [], true, 1, 1⟩ : MotionTracker).update none none =
      ⟨[], [], true, 1, 0⟩ := by
    rw [MotionTracker.update, updateWith_absent 6 _ none none (Or.inl rfl),
      if_pos (by norm_num)]
    norm_num
  rw [hupd] at hinst
  rcases hinst.mp rfl with hbad | hbad
  · norm_num at hbad
  · exact absurd hbad (by norm_num)

/-- Claim C1 (amended): the flag decision reads the cooldown *before* the
end-of-call decrement, and a call that returns early (a hand absent, or a
history still shorter than 4) never consults `detection_frames`.  Hence, at
the end of every call: (a) with a hand absent and the cooldown expired,
`detection_frames` resets to 0 and the flag to false; (b) on a warm-up call
the flag is true iff the entry cooldown was positive; (c) otherwise the
flag is true iff `detection_frames ≥ 1.5` or `cooldown_frames > 0` in the
post-state or the entry cooldown was exactly 1 (it was read as positive,
then decremented to 0 in the same call). -/
theorem alternating_detected_iff_amended (t : MotionTracker) (l r : Option ℚ) :
    (((l = none ∨ r = none) ∧ t.cooldown_frames = 0) →
      ((t.update l r).detection_frames = 0 ∧
       (t.update l r).alternating_detected = false)) ∧
    (∀ ly ry, l = some ly → r = some ry →
      ((dequeAppend 6 t.left_hand_history ly).length < 4 ∨
       (dequeAppend 6 t.right_hand_history ry).length < 4) →
      ((t.update l r).alternating_detected = true ↔ 0 < t.cooldown_frames)) ∧
    (((l = none ∨ r = none) ∧ 0 < t.cooldown_frames) →
      ((t.update l r).alternating_detected = true ↔
        ((3/2 : ℚ) ≤ (t.update l r).detection_frames ∨
         0 < (t.update l r).cooldown_frames ∨ t.cooldown_frames = 1))) ∧
    (∀ ly ry, l = some ly → r = some ry →
      ¬((dequeAppend 6 t.left_hand_history ly).length < 4 ∨
        (dequeAppend 6 t.right_hand_history ry).length < 4) →
      ((t.update l r).alternating_detected = true ↔
        ((3/2 : ℚ) ≤ (t.update l r).detection_frames ∨
         0 < (t.update l r).cooldown_frames ∨ t.cooldown_frames = 1))) := by
  refine ⟨?_, ?_, ?_, ?_⟩
  · rintro ⟨habs, hc0⟩
    rw [MotionTracker.update, updateWith_absent 6 t l r habs, if_neg (by omega)]
    exact ⟨rfl, rfl⟩
  · intro ly ry hly hry hwu
    subst hly hry
    rw [MotionTracker.update, updateWith_warmup 6 t ly ry hwu]
    by_cases h0 : 0 < t.cooldown_frames
    · rw [if_pos h0]
      exact iff_of_true rfl h0
    · rw [if_neg h0]
      exact iff_of_false (by simp) h0
  · rintro ⟨habs, hpos⟩
    rw [MotionTracker.update, updateWith_absent 6 t l r habs, if_pos hpos]
    constructor
    · intro _
      rcases Nat.lt_or_ge t.cooldown_frames 2 with h2 | h2
      · exact Or.inr (Or.inr (by omega))
      · exact Or.inr (Or.inl (by show 0 < t.cooldown_frames - 1; omega))
    · intro _
      rfl
  · intro ly ry hly hry hnw
    subst hly hry
    by_cases hq : qualifiesAt (dequeAppend 6 t.left_hand_history ly)
        (dequeAppend 6 t.right_hand_history ry)
    · rw [MotionTracker.update, updateWith_qualify 6 t ly ry hnw hq]
      exact iff_of_true rfl (Or.inr (Or.inl (by norm_num)))
    · obtain ⟨f1, f2, f3⟩ := updateWith_noqualify_fields 6 t ly ry hnw hq
      simp only [MotionTracker.update]
      rw [f3, f1, f2]
      constructor
      · rintro (h | h)
        · exact Or.inl h
        · refine Or.inr ?_
          rw [if_pos (Or.inr h)]
          rcases Nat.lt_or_ge t.cooldown_frames 2 with h2 | h2
          · exact Or.inr (by omega)
          · exact Or.inl (by omega)
      · rintro (h | h | h)
        · exact Or.inl h
        · by_cases hdec : ((3/2 : ℚ) ≤ (if 0 < t.detection_frames
              then t.detection_frames - 1/2 else t.detection_frames) ∨
              0 < t.cooldown_frames)
          · exact hdec
          · rw [if_neg hdec] at h
            exact Or.inr h
        · exact Or.inr (by omega)

/-- Witness for the amended claim C1: an absent call entering with cooldown
exactly 1 keeps the flag asserted via the third disjunct. -/
theorem alternating_detected_iff_amended_witness :
    ((⟨[], [], true, 1, 1⟩ : MotionTracker).update none none).alternating_detected = true ∧
    ((⟨[], [], true, 1, 1⟩ : MotionTracker).update none none).cooldown_frames = 0 :=
  ⟨((alternating_detected_iff_amended ⟨[], [], true, 1, 1⟩ none none).2.2.1
      ⟨Or.inl rfl, by norm_num⟩).mpr (Or.inr (Or.inr rfl)), rfl⟩

/-! ## Claim C10 — the two tracker variants are observationally equivalent -/

/-- Two booleans agreeing on `= true` are equal. -/
theorem bool_eq_of_iff {a b : Bool} (h : a = true ↔ b = true) : a = b := by
  cases a <;> cases b <;> simp_all

/-- One frame preserves the simulation relation. -/
theorem simR_step (t u : MotionTracker) (p : Option ℚ × Option ℚ) (h : simR t u) :
    simR (stepWith 6 t p) (stepWith 8 u p) := by
  obtain ⟨hL, hR, hB, hD, hC⟩ := h
  have habs : ∀ l r : Option ℚ, (l = none ∨ r = none) →
      simR (updateWith 6 t l r) (updateWith 8 u l r) := by
    intro l r hno
    rw [updateWith_absent 6 t l r hno, updateWith_absent 8 u l r hno, hC]
    by_cases h0 : 0 < u.cooldown_frames
    · rw [if_pos h0, if_pos h0]
      exact ⟨rfl, rfl, rfl, hD, rfl⟩
    · rw [if_neg h0, if_neg h0]
      exact ⟨rfl, rfl, rfl, rfl, rfl⟩
  rcases p with ⟨_ | ly, _ | ry⟩
  · exact habs none none (Or.inl rfl)
  · exact habs none (some ry) (Or.inl rfl)
  · exact habs (some ly) none (Or.inr rfl)
  · have h6 : stepWith 6 t (some ly, some ry) = updateWith 6 t (some ly) (some ry) := rfl
    have h8 : stepWith 8 u (some ly, some ry) = updateWith 8 u (some ly) (some ry) := rfl
    rw [h6, h8]
    have eL6 : dequeAppend 6 t.left_hand_history ly =
        lastN 6 (u.left_hand_history ++ [ly]) := by
      rw [hL, dequeAppend_eq_lastN, lastN_append_single 6 (by norm_num), lastN_lastN,
        lastN_append_single 6 (by norm_num)]
      norm_num
    have eR6 : dequeAppend 6 t.right_hand_history ry =
        lastN 6 (u.right_hand_history ++ [ry]) := by
      rw [hR, dequeAppend_eq_lastN, lastN_append_single 6 (by norm_num), lastN_lastN,
        lastN_append_single 6 (by norm_num)]
      norm_num
    have eL8 : dequeAppend 8 u.left_hand_history ly =
        lastN 8 (u.left_hand_history ++ [ly]) := dequeAppend_eq_lastN 8 _ _
    have eR8 : dequeAppend 8 u.right_hand_history ry =
        lastN 8 (u.right_hand_history ++ [ry]) := dequeAppend_eq_lastN 8 _ _
    have hrelL : lastN 6 (dequeAppend 8 u.left_hand_history ly) =
        dequeAppend 6 t.left_hand_history ly := by
      rw [eL8, lastN_lastN, eL6]
      norm_num
    have hrelR : lastN 6 (dequeAppend 8 u.right_hand_history ry) =
        dequeAppend 6 t.right_hand_history ry := by
      rw [eR8, lastN_lastN, eR6]
      norm_num
    have hlen6L : (dequeAppend 6 t.left_hand_history ly).length =
        min (min u.left_hand_history.length 6 + 1) 6 := by
      rw [dequeAppend_length, hL, lastN_length]
    have hlen6R : (dequeAppend 6 t.right_hand_history ry).length =
        min (min u.right_hand_history.length 6 + 1) 6 := by
      rw [dequeAppend_length, hR, lastN_length]
    have hlen8L : (dequeAppend 8 u.left_hand_history ly).length =
        min (u.left_hand_history.length + 1) 8 := dequeAppend_length 8 _ _
    have hlen8R : (dequeAppend 8 u.right_hand_history ry).length =
        min (u.right_hand_history.length + 1) 8 := dequeAppend_length 8 _ _
    have hwarm : ((dequeAppend 6 t.left_hand_history ly).length < 4 ∨
        (dequeAppend 6 t.right_hand_history ry).length < 4) ↔
        ((dequeAppend 8 u.left_hand_history ly).length < 4 ∨
         (dequeAppend 8 u.right_hand_history ry).length < 4) := by
      rw [hlen6L, hlen6R, hlen8L, hlen8R]
      omega
    by_cases hw8 : (dequeAppend 8 u.left_hand_history ly).length < 4 ∨
        (dequeAppend 8 u.right_hand_history ry).length < 4
    · have hw6 := hwarm.mpr hw8
      rw [updateWith_warmup 6 t ly ry hw6, updateWith_warmup 8 u ly ry hw8, hC, hD]
      by_cases h0 : 0 < u.cooldown_frames
      · rw [if_pos h0, if_pos h0]
        exact ⟨hrelL.symm, hrelR.symm, rfl, rfl, rfl⟩
      · rw [if_neg h0, if_neg h0]
        exact ⟨hrelL.symm, hrelR.symm, rfl, rfl, rfl⟩
    · have hw6 : ¬((dequeAppend 6 t.left_hand_history ly).length < 4 ∨
          (dequeAppend 6 t.right_hand_history ry).length < 4) :=
        fun hx => hw8 (hwarm.mp hx)
      push_neg at hw8
      obtain ⟨h8l, h8r⟩ := hw8
      have hw8' : ¬((dequeAppend 8 u.left_hand_history ly).length < 4 ∨
          (dequeAppend 8 u.right_hand_history ry).length < 4) := by omega
      have huL : 4 ≤ u.left_hand_history.length + 1 := by
        rw [hlen8L] at h8l
        omega
      have huR : 4 ≤ u.right_hand_history.length + 1 := by
        rw [hlen8R] at h8r
        omega
      have hwlenL : (u.left_hand_history ++ [ly]).length =
          u.left_hand_history.length + 1 := by simp
      have hwlenR : (u.right_hand_history ++ [ry]).length =
          u.right_hand_history.length + 1 := by simp
      have m6L1 : negIdx (dequeAppend 6 t.left_hand_history ly) 1 =
          negIdx (u.left_hand_history ++ [ly]) 1 := by
        rw [eL6]
        exact negIdx_lastN 6 1 _ (by norm_num) (by rw [hwlenL]; omega)
      have m6L4 : negIdx (dequeAppend 6 t.left_hand_history ly) 4 =
          negIdx (u.left_hand_history ++ [ly]) 4 := by
        rw [eL6]
        exact negIdx_lastN 6 4 _ (by norm_num) (by rw [hwlenL]; omega)
      have m6R1 : negIdx (dequeAppend 6 t.right_hand_history ry) 1 =
          negIdx (u.right_hand_history ++ [ry]) 1 := by
        rw [eR6]
        exact negIdx_lastN 6 1 _ (by norm_num) (by rw [hwlenR]; omega)
      have m6R4 : negIdx (dequeAppend 6 t.right_hand_history ry) 4 =
          negIdx (u.right_hand_history ++ [ry]) 4 := by
        rw [eR6]
        exact negIdx_lastN 6 4 _ (by norm_num) (by rw [hwlenR]; omega)
      have m8L1 : negIdx (dequeAppend 8 u.left_hand_history ly) 1 =
          negIdx (u.left_hand_history ++ [ly]) 1 := by
        rw [eL8]
        exact negIdx_lastN 8 1 _ (by norm_num) (by rw [hwlenL]; omega)
      have m8L4 : negIdx (dequeAppend 8 u.left_hand_history ly) 4 =
          negIdx (u.left_hand_history ++ [ly]) 4 := by
        rw [eL8]
        exact negIdx_lastN 8 4 _ (by norm_num) (by rw [hwlenL]; omega)
      have m8R1 : negIdx (dequeAppend 8 u.right_hand_history ry) 1 =
          negIdx (u.right_hand_history ++ [ry]) 1 := by
        rw [eR8]
        exact negIdx_lastN 8 1 _ (by norm_num) (by rw [hwlenR]; omega)
      have m8R4 : negIdx (dequeAppend 8 u.right_hand_history ry) 4 =
          negIdx (u.right_hand_history ++ [ry]) 4 := by
        rw [eR8]
        exact negIdx_lastN 8 4 _ (by norm_num) (by rw [hwlenR]; omega)
      have hqiff : qualifiesAt (dequeAppend 6 t.left_hand_history ly)
          (dequeAppend 6 t.right_hand_history ry) ↔
          qualifiesAt (dequeAppend 8 u.left_hand_history ly)
            (dequeAppend 8 u.right_hand_history ry) := by
        unfold qualifiesAt
        rw [m6L1, m6L4, m6R1, m6R4, m8L1, m8L4, m8R1, m8R4]
      by_cases hq8 : qualifiesAt (dequeAppend 8 u.left_hand_history ly)
          (dequeAppend 8 u.right_hand_history ry)
      · rw [updateWith_qualify 6 t ly ry hw6 (hqiff.mpr hq8),
          updateWith_qualify 8 u ly ry hw8' hq8]
        exact ⟨hrelL.symm, hrelR.symm, rfl, by rw [hD], rfl⟩
      · have hq6 : ¬ qualifiesAt (dequeAppend 6 t.left_hand_history ly)
            (dequeAppend 6 t.right_hand_history ry) := fun hx => hq8 (hqiff.mp hx)
        obtain ⟨g1, g2, g3⟩ := updateWith_noqualify_fields 6 t ly ry hw6 hq6
        obtain ⟨k1, k2, k3⟩ := updateWith_noqualify_fields 8 u ly ry hw8' hq8
        obtain ⟨p6L, p6R⟩ := updateWith_present_histories 6 t ly ry
        obtain ⟨p8L, p8R⟩ := updateWith_present_histories 8 u ly ry
        rw [hD] at g1 g2 g3
        rw [hC] at g2 g3
        refine ⟨?_, ?_, ?_, ?_, ?_⟩
        · rw [p6L, p8L, hrelL]
        · rw [p6R, p8R, hrelR]
        · exact bool_eq_of_iff (g3.trans k3.symm)
        · rw [g1, k1]
        · rw [g2, k2]

/-- Run-level simulation for every prefix. -/
theorem simR_run_aux (inputs : List (Option ℚ × Option ℚ)) :
    ∀ t u : MotionTracker, simR t u → ∀ n : ℕ,
      simR (runFromWith 6 t (inputs.take n)) (runFromWith 8 u (inputs.take n)) := by
  induction inputs with
  | nil =>
    intro t u h n
    simpa [runFromWith] using h
  | cons p rest ih =>
    intro t u h n
    cases n with
    | zero => simpa [runFromWith] using h
    | succ n' =>
      simp only [List.take_succ_cons, runFromWith, List.foldl_cons]
      have := ih (stepWith 6 t p) (stepWith 8 u p) (simR_step t u p h) n'
      simpa [runFromWith] using this

/-- Claim C10: the inline tracker of `app.py` (history capacity 8) and the
tracker of `motion_tracker.py` (capacity 6) are observationally equivalent:
run over the same inputs from fresh states, they agree on
`alternating_detected`, `detection_frames` and `cooldown_frames` after every
call — the algorithm only tests whether a history holds at least 4 entries
and only reads the samples at positions `-1` and `-4`. -/
theorem tracker_capacity_equiv (inputs : List (Option ℚ × Option ℚ)) (n : ℕ) :
    (runWith 6 (inputs.take n)).alternating_detected =
      (runWith 8 (inputs.take n)).alternating_detected ∧
    (runWith 6 (inputs.take n)).detection_frames =
      (runWith 8 (inputs.take n)).detection_frames ∧
    (runWith 6 (inputs.take n)).cooldown_frames =
      (runWith 8 (inputs.take n)).cooldown_frames := by
  have h := simR_run_aux inputs MotionTracker.fresh MotionTracker.fresh
    ⟨rfl, rfl, rfl, rfl, rfl⟩ n
  exact ⟨h.2.2.1, h.2.2.2.1, h.2.2.2.2⟩

end VideoApp
